import Mathlib

/-!
Verification development for the letsencrypt repository excerpt.

The repository excerpt contains three Python source files:
* `letsencrypt/cli.py` (argument handling: `handle_csr`, `determine_verb`,
  `prescan_for_flag`, `process_domain`),
* `letsencrypt/plugins/manual.py` (the manual authenticator plugin),
* `client-webserver/sni_challenge.py` (the SNI challenge orchestration).

Each Python function relevant to the claims is shallowly embedded as an
executable Lean definition.  External effects (subprocess calls, the file
system, augeas, randomness) are modelled by explicit environment records and
event traces.
-/

namespace LetsEncrypt

/-! ### String primitives

The Python string operations used by the sources (`str.split` on a one-char
separator, `str.strip`, `str.lower`, substring membership) are modelled by
structurally recursive functions over the character list of a `String`, so
that every definition evaluates by kernel reduction. -/

/-- Splitting a character list at every occurrence of `c`
(Python `str.split(c)` semantics: `"".split(c) == [""]`). -/
def splitCharAux (c : Char) : List Char → List (List Char)
  | [] => [[]]
  | ch :: rest =>
    match splitCharAux c rest with
    | [] => [[ch]]
    | h :: t => if ch = c then [] :: h :: t else (ch :: h) :: t

/-- Python `s.split(c)` for a single-character separator. -/
def pySplit (c : Char) (s : String) : List String :=
  (splitCharAux c s.data).map String.mk

/-- Python `s.strip()`: remove leading and trailing whitespace. -/
def pyStrip (s : String) : String :=
  String.mk (((s.data.dropWhile Char.isWhitespace).reverse.dropWhile
    Char.isWhitespace).reverse)

/-- ASCII lowering of one character. -/
def pyLowerChar (c : Char) : Char :=
  if 'A' ≤ c ∧ c ≤ 'Z' then Char.ofNat (c.toNat + 32) else c

/-- Python `s.lower()` (restricted to ASCII letters). -/
def pyLower (s : String) : String := String.mk (s.data.map pyLowerChar)

/-- Whether the first list is a prefix of the second. -/
def segPrefix : List Char → List Char → Bool
  | [], _ => true
  | _ :: _, [] => false
  | a :: as, b :: bs => a = b && segPrefix as bs

/-- Whether the first list occurs contiguously inside the second. -/
def segIn (sub : List Char) : List Char → Bool
  | [] => segPrefix sub []
  | c :: rest => segPrefix sub (c :: rest) || segIn sub rest

/-! ## Embedding of `letsencrypt/cli.py` -/

namespace Cli

/-- Modelled from the spec: `le_util.enforce_domain_sanity` lives in
`letsencrypt/le_util.py`, which is not part of the excerpt.  The spec's data
model says a Domain is "a validated hostname string; normalized (lowercased,
IDNA-safe, ...)"; we model the normalization as lowercasing. -/
def enforce_domain_sanity (domain : String) : String := pyLower domain

/-- The slice of the argparse namespace object that the embedded functions
read and write. -/
structure ParsedArgs where
  verb : String
  domains : List String
  webroot_path : List String
  webroot_map : List (String × String)
deriving Repr, DecidableEq

/-- Python `dict.setdefault(k, v)` on an association-list model of a dict:
insert `(k, v)` only when `k` has no binding yet. -/
def setdefault (m : List (String × String)) (k v : String) : List (String × String) :=
  if m.any (fun p => p.1 = k) then m else m ++ [(k, v)]

/-- One iteration of the loop in `process_domain` (cli.py lines 878-885):
sanitize the stripped piece, append it to `domains` only when absent, and in
that case record the most recent webroot path via `setdefault`. -/
def process_domain_step (wp : List String) (a : ParsedArgs) (piece : String) : ParsedArgs :=
  let domain := enforce_domain_sanity (pyStrip piece)
  if domain ∈ a.domains then a
  else
    { a with
      domains := a.domains ++ [domain]
      webroot_map :=
        match wp.getLast? with
        | some w => setdefault a.webroot_map domain w
        | none => a.webroot_map }

/-- Python truthiness fallback at line 876:
`webroot_path = webroot_path if webroot_path else args_or_config.webroot_path`. -/
def effective_webroot (a : ParsedArgs) (webroot_path : Option (List String)) : List String :=
  match webroot_path with
  | some w => if w.isEmpty then a.webroot_path else w
  | none => a.webroot_path

/-- `process_domain(args_or_config, domain_arg, webroot_path=None)`
(cli.py lines 866-885).  `domain_arg` may name several comma-separated
domains. -/
def process_domain (a : ParsedArgs) (domain_arg : String)
    (webroot_path : Option (List String)) : ParsedArgs :=
  (pySplit ',' domain_arg).foldl (process_domain_step (effective_webroot a webroot_path)) a

/-- The exception classes raised by the embedded cli.py fragments. -/
inductive CliError where
  | err (msg : String)
  | configurationError (msg : String)
deriving Repr, DecidableEq

/-- Python `set(l1) == set(l2)` on lists of strings. -/
def listSetEq (l1 l2 : List String) : Bool :=
  (l1.all fun x => decide (x ∈ l2)) && (l2.all fun x => decide (x ∈ l1))

/-- `HelpfulArgumentParser.handle_csr` (cli.py lines 308-353), starting after
the CSR has been parsed: `csrDomains` is the result of
`crypto_util.get_sans_from_csr`.  The function first feeds every CSR domain
through `process_domain` (mutating `parsed_args.domains`), then checks each
CSR domain against its sanitised form, then requires a non-empty SAN list,
and finally compares `set(domains)` with `set(parsed_args.domains)`. -/
def handle_csr (pa : ParsedArgs) (csrDomains : List String) : Except CliError ParsedArgs :=
  if pa.verb ≠ "certonly" then
    Except.error (CliError.err
      "Currently, a CSR file may only be specified when obtaining a new or replacement via the certonly command. Please try the certonly command instead.")
  else
    let pa1 := csrDomains.foldl (fun a d => process_domain a d none) pa
    match csrDomains.find? (fun d => pyLower d ≠ enforce_domain_sanity d) with
    | some d =>
      Except.error (CliError.configurationError
        ("CSR domain " ++ d ++ " needs to be sanitised to " ++ enforce_domain_sanity d ++ "."))
    | none =>
      if csrDomains.isEmpty then
        Except.error (CliError.err
          "Unfortunately, your CSR needs to have a SubjectAltName for every domain")
      else if ¬ listSetEq csrDomains pa1.domains then
        Except.error (CliError.configurationError
          ("Inconsistent domain requests:\nFrom the CSR: "
            ++ String.intercalate ", " csrDomains
            ++ "\nFrom command line/config: "
            ++ String.intercalate ", " pa1.domains))
      else
        Except.ok pa1

/-- The two verb aliases applied in `determine_verb` (cli.py lines 369-373):
`auth` becomes `certonly` and `everything` becomes `run`. -/
def map_verb (v : String) : String :=
  let v1 := if v = "auth" then "certonly" else v
  if v1 = "everything" then "run" else v1

/-- The scanning loop of `determine_verb` (cli.py lines 367-378): the first
token that is a known verb is removed from the argument list and becomes the
verb (after aliasing); if none is found the verb defaults to `run`. -/
def determine_verb_core (VERBS : List String) : List String → String × List String
  | [] => ("run", [])
  | tok :: rest =>
    if tok ∈ VERBS then (map_verb tok, rest)
    else
      let p := determine_verb_core VERBS rest
      (p.1, tok :: p.2)

/-- `HelpfulArgumentParser.determine_verb` (cli.py lines 356-378), returning
the pair (verb, remaining argument list).  `VERBS` models the keys of
`main.VERBS`. -/
def determine_verb (VERBS : List String) (args : List String) : String × List String :=
  if "-h" ∈ args ∨ "--help" ∈ args then ("help", args)
  else determine_verb_core VERBS args

/-- Result of `prescan_for_flag`: the Python function returns either a bool
or the string argument following the flag. -/
inductive ScanResult where
  | asBool (b : Bool)
  | flagArg (s : String)
deriving Repr, DecidableEq

/-- Python `list.index(x)`: position of the first occurrence. -/
def pyIndex (x : String) : List String → Nat
  | [] => 0
  | a :: rest => if a = x then 0 else pyIndex x rest + 1

/-- `HelpfulArgumentParser.prescan_for_flag` (cli.py lines 380-399). -/
def prescan_for_flag (flag : String) (possible_arguments : List String)
    (args : List String) : ScanResult :=
  if flag ∈ args then
    match args[pyIndex flag args + 1]? with
    | some nxt =>
      if nxt ∈ possible_arguments then ScanResult.flagArg nxt else ScanResult.asBool true
    | none => ScanResult.asBool true
  else ScanResult.asBool false

end Cli

/-! ## Embedding of `letsencrypt/plugins/manual.py` -/

namespace Manual

/-- The configuration bits `manual.Authenticator` reads:
`config.noninteractive_mode` and `self.conf("test-mode")`. -/
structure Config where
  noninteractive_mode : Bool
  test_mode : Bool
deriving Repr, DecidableEq

/-- Exception classes raised by the embedded manual.py fragments. -/
inductive PyErr where
  | pluginError (msg : String)
  | assertionError (msg : String)
  | valueError
  | osError
deriving Repr, DecidableEq

/-- A subprocess handle: `poll()` returns `None` exactly while the process
still runs. -/
structure Proc where
  running : Bool
deriving Repr, DecidableEq

/-- The mutable state of an `Authenticator` instance: its configuration,
`self._httpd`, and whether the `self._root` directory exists on disk. -/
structure AuthState where
  config : Config
  httpd : Option Proc
  rootExists : Bool
deriving Repr, DecidableEq

/-- `Authenticator.__init__` (manual.py lines 80-84): `_root` is a fresh
`mkdtemp` directory in test mode (so it exists) and `/tmp/letsencrypt`
otherwise; `_httpd` is set to `None`. -/
def authInit (cfg : Config) : AuthState :=
  { config := cfg, httpd := none, rootExists := cfg.test_mode }

/-- `Authenticator.prepare` (manual.py lines 93-95). -/
def prepare (s : AuthState) : Except PyErr AuthState :=
  if s.config.noninteractive_mode && !s.config.test_mode then
    Except.error (PyErr.pluginError "Running manual mode non-interactively is not supported")
  else
    Except.ok s

/-- An ACME challenge response object; opaque payload. -/
structure Response where
  payload : String
deriving Repr, DecidableEq

/-- An annotated challenge as `_perform_single` consumes it:
`response_and_validation()` yields the `response`/`validation` pair, and
`simpleVerifyOK` records the outcome of
`response.simple_verify(chall, domain, pubkey, http01_port)`. -/
structure AChall where
  domain : String
  response : Response
  validation : String
  simpleVerifyOK : Bool
deriving Repr, DecidableEq

/-- What one `_perform_single` call produces: the returned response, the
warnings logged, and the files written (path, content). -/
structure SingleResult where
  response : Response
  warnings : List String
  writes : List (String × String)
deriving Repr, DecidableEq

/-- The directory `_perform_single` writes the validation into
(`os.path.expanduser` of `~/.well-known/acme-challenge/`). -/
def target_dir : String := "~/.well-known/acme-challenge/"

/-- `Authenticator._perform_single` (manual.py lines 130-150).  The tuple
unpacking `target_name, _ = validation.split('.')` raises `ValueError`
unless the split has exactly two parts; a failing `simple_verify` only logs
a warning; the response is returned unchanged.  Note that `self._httpd` is
never assigned here. -/
def _perform_single (achall : AChall) : Except PyErr SingleResult :=
  match pySplit '.' achall.validation with
  | [target_name, _] =>
    let writes := [(target_dir ++ target_name, achall.validation)]
    let warnings := if achall.simpleVerifyOK then [] else ["Self-verify of challenge failed."]
    Except.ok { response := achall.response, warnings := warnings, writes := writes }
  | _ => Except.error PyErr.valueError

/-- `Authenticator.perform` (manual.py lines 108-114): appends
`_perform_single(achall)` for each challenge in order; a raised exception
propagates at the point it occurs. -/
def perform : List AChall → Except PyErr (List SingleResult)
  | [] => Except.ok []
  | a :: rest =>
    match _perform_single a with
    | Except.error e => Except.error e
    | Except.ok r =>
      match perform rest with
      | Except.error e => Except.error e
      | Except.ok rs => Except.ok (r :: rs)

/-- Modelled from the spec: the challenge orchestrator that drives the
`Prepared → Performed` transition is not part of the excerpt.  Per the spec,
"authenticator's `perform(challenges)` is invoked once for the full batch
across all domains (never per-domain)"; this definition records the batches
passed to `perform` during one transition. -/
def orchestrator_perform_batches (achalls : List AChall) : List (List AChall) :=
  [achalls]

/-- A concrete challenge whose self-verification succeeds. -/
def achallA : AChall :=
  { domain := "a.example", response := { payload := "rA" },
    validation := "tokA.thumb", simpleVerifyOK := true }

/-- A concrete challenge whose self-verification fails. -/
def achallB : AChall :=
  { domain := "b.example", response := { payload := "rB" },
    validation := "tokB.thumb", simpleVerifyOK := false }

/-- A concrete two-challenge batch. -/
def manualBatch : List AChall := [achallA, achallB]

/-- The responses `perform` produces for `manualBatch`. -/
def manualRS : List SingleResult :=
  [{ response := { payload := "rA" }, warnings := [],
     writes := [(target_dir ++ "tokA", "tokA.thumb")] },
   { response := { payload := "rB" }, warnings := ["Self-verify of challenge failed."],
     writes := [(target_dir ++ "tokB", "tokB.thumb")] }]

/-- `Authenticator.cleanup` (manual.py lines 152-163).  Outside test mode
the body is skipped entirely.  In test mode it first asserts
`self._httpd is not None`, then terminates the process if it still runs,
then removes `self._root` (`shutil.rmtree` raises when the directory is
gone). -/
def cleanup (s : AuthState) : Except PyErr AuthState :=
  if s.config.test_mode then
    match s.httpd with
    | none => Except.error (PyErr.assertionError "cleanup() must be called after perform()")
    | some p =>
      let s1 := if p.running then { s with httpd := some { running := false } } else s
      if s1.rootExists then Except.ok { s1 with rootExists := false }
      else Except.error PyErr.osError
  else Except.ok s

end Manual

/-! ## Embedding of `client-webserver/sni_challenge.py` -/

namespace Sni

def CHOC_DIR : String := "/home/james/Documents/apache_choc/"

def CHOC_CERT_CONF : String := "choc_cert_extensions.cnf"

def OPTIONS_SSL_CONF : String := CHOC_DIR ++ "options-ssl.conf"

def APACHE_CHALLENGE_CONF : String := CHOC_DIR ++ "choc_sni_cert_challenge.conf"

/-- `getChocCertFile` (sni_challenge.py lines 23-32). -/
def getChocCertFile (nonce : String) : String := CHOC_DIR ++ nonce ++ ".crt"

/-- Python `sub in s` on strings: substring membership. -/
def strIn (sub s : String) : Bool := segIn sub.data s.data

/-- `getConfigText` (sni_challenge.py lines 53-77); line continuations
inside the Python string literal splice its lines together. -/
def getConfigText (nonce : String) (ip_addrs : List String) (key : String) : String :=
  "<VirtualHost " ++ String.intercalate " " ip_addrs ++ "> \n ServerName " ++ nonce
    ++ ".chocolate \n UseCanonicalName on \n SSLStrictSNIVHostCheck on \n \n LimitRequestBody 1048576 \n \n Include "
    ++ OPTIONS_SSL_CONF ++ " \n SSLCertificateFile " ++ getChocCertFile nonce
    ++ " \n SSLCertificateKeyFile " ++ key ++ " \n \n DocumentRoot " ++ CHOC_DIR
    ++ "challenge_page/ \n </VirtualHost> \n\n "

/-- An Apache virtual host as the configurator returns it (only the `addrs`
attribute is read). -/
structure Vhost where
  addrs : List String
deriving Repr, DecidableEq

/-- One entry of `listSNITuple`: `(addr, y, nonce, ext_oid)`. -/
structure SNITuple where
  addr : String
  y : List Nat
  nonce : String
  ext_oid : String
deriving Repr, DecidableEq

/-- Observable effects of the sni_challenge functions, in program order. -/
inductive Event where
  | save (title : String) (reversible : Option Bool)
  | makeServerSniReady (addrs : List String) (default_addr : String)
  | writeCertConf (oid : String) (value : String)
  | opensslSignCert (nonce : String)
  | addInclude (augPath : String)
  | writeChallengeConf (content : String)
  | revertConfig
  | apacheReload (exitCode : Int)
  | removeFile (path : String)
deriving Repr, DecidableEq

/-- The environment a run of sni_challenge interacts with: the configurator
object, randomness inside `generateExtension`, the located httpd.conf, the
contents of the certificate extension config, and the exit status the
`apache2 reload` subprocess will report. -/
structure Env where
  choose_virtual_host : String → Option Vhost
  make_server_sni_ready : Vhost → String → Bool
  generateExtension : String → List Nat → String
  find_directive_count : Nat
  httpd_conf : Option String
  cert_conf_has_ext_line : Bool
  reload_exit : Int

/-- How a run of `perform_sni_cert_challenge` ends: normal completion,
`return False`, the `NameError` on `tup` when `listSNITuple` is empty, the
`TypeError` from `"/files" + None` when httpd.conf was not found, or the
`exit()` inside `updateCertConf`. -/
inductive Outcome where
  | finished
  | returnedFalse
  | nameError
  | typeError
  | exited
deriving Repr, DecidableEq

def default_addr : String := "*:443"

/-- The first loop of `perform_sni_cert_challenge` (lines 235-251): look up
a virtual host per tuple, call `make_server_sni_ready`, and collect the
address list (collapsed to `*:443` when a `_default_` address is present);
`return False` aborts on a missing vhost or a failed
`make_server_sni_ready`. -/
def gatherAddrs (env : Env) : List SNITuple → List Event × Option (List (List String))
  | [] => ([], some [])
  | t :: rest =>
    match env.choose_virtual_host t.addr with
    | none => ([], none)
    | some vhost =>
      let ev := Event.makeServerSniReady vhost.addrs default_addr
      if env.make_server_sni_ready vhost default_addr then
        let entry :=
          if vhost.addrs.any (fun a => strIn "_default_" a) then [default_addr]
          else vhost.addrs
        let p := gatherAddrs env rest
        (ev :: p.1, p.2.map (fun ls => entry :: ls))
      else ([ev], none)

/-- `updateCertConf` (lines 162-187): rewrites `CHOC_CERT_CONF`, replacing
the `=critical, DER:` line; when no such line exists it prints an error and
calls `exit()` (the `false` result). -/
def updateCertConf (env : Env) (oid value : String) : List Event × Bool :=
  if env.cert_conf_has_ext_line then ([Event.writeCertConf oid value], true)
  else ([], false)

/-- `createChallengeCert` (lines 116-130): update the extension config, then
invoke openssl to write the challenge certificate. -/
def createChallengeCert (env : Env) (oid ext nonce csr key : String) : List Event × Bool :=
  let p := updateCertConf env oid ext
  if p.2 then (p.1 ++ [Event.opensslSignCert nonce], true) else (p.1, false)

/-- The second loop of `perform_sni_cert_challenge` (lines 253-255):
generate the extension value and create one challenge certificate per
tuple. -/
def makeCerts (env : Env) (csr key : String) : List SNITuple → List Event × Bool
  | [] => ([], true)
  | t :: rest =>
    let ext := env.generateExtension key t.y
    let p := createChallengeCert env t.ext_oid ext t.nonce csr key
    if p.2 then
      let q := makeCerts env csr key rest
      (p.1 ++ q.1, q.2)
    else (p.1, false)

/-- `checkForApacheConfInclude` (lines 103-114): add the Include directive
when `find_directive` reports no existing one; `"/files" + mainConfig`
raises `TypeError` when `findApacheConfigFile` returned `None`. -/
def checkForApacheConfInclude (env : Env) (mainConfig : Option String) : List Event × Bool :=
  if env.find_directive_count = 0 then
    match mainConfig with
    | some p => ([Event.addInclude ("/files" ++ p)], true)
    | none => ([], false)
  else ([], true)

/-- `modifyApacheConfig` (lines 79-100): build the challenge virtual-host
text, ensure the Include directive, then write `APACHE_CHALLENGE_CONF`. -/
def modifyApacheConfig (env : Env) (mainConfig : Option String) (nonce : String)
    (listlistAddrs : List (List String)) (key : String) : List Event × Bool :=
  let configText := "<IfModule mod_ssl.c> \n"
    ++ String.join (listlistAddrs.map (fun lis => getConfigText nonce lis key))
    ++ "</IfModule> \n"
  let p := checkForApacheConfInclude env mainConfig
  if p.2 then (p.1 ++ [Event.writeChallengeConf configText], true) else (p.1, false)

/-- Everything `perform_sni_cert_challenge` (lines 218-260) does after its
initial `configurator.save` call.  The stray `tup[2]` at line 257 reads the
loop variable left over from the preceding loops, i.e. the last tuple's
nonce; with an empty `listSNITuple` it raises `NameError`. -/
def sni_body (env : Env) (listSNITuple : List SNITuple) (csr key : String) :
    List Event × Outcome :=
  let g := gatherAddrs env listSNITuple
  match g.2 with
  | none => (g.1, Outcome.returnedFalse)
  | some addresses =>
    let m := makeCerts env csr key listSNITuple
    if m.2 then
      match listSNITuple.getLast? with
      | none => (g.1 ++ m.1, Outcome.nameError)
      | some lastTup =>
        let w := modifyApacheConfig env env.httpd_conf lastTup.nonce addresses key
        if w.2 then
          (g.1 ++ m.1 ++ w.1
            ++ [Event.save "SNI Challenge" (some true), Event.apacheReload env.reload_exit],
           Outcome.finished)
        else (g.1 ++ m.1 ++ w.1, Outcome.typeError)
    else (g.1 ++ m.1, Outcome.exited)

/-- `perform_sni_cert_challenge` (lines 218-260): the very first statement
is `configurator.save("Before performing sni_challenge")` (line 231); the
rest of the run follows. -/
def perform_sni_cert_challenge (env : Env) (listSNITuple : List SNITuple)
    (csr key : String) : List Event × Outcome :=
  (Event.save "Before performing sni_challenge" none :: (sni_body env listSNITuple csr key).1,
   (sni_body env listSNITuple csr key).2)

/-- The configuration writes named by the checkpoint claim: the
`make_server_sni_ready` mutation, the Include directive added by
`checkForApacheConfInclude`, and the write of the Apache challenge
configuration file in `modifyApacheConfig`. -/
def isChallengeConfigWrite : Event → Bool
  | Event.makeServerSniReady _ _ => true
  | Event.addInclude _ => true
  | Event.writeChallengeConf _ => true
  | _ => false

/-- The pre-operation checkpoint save of line 231. -/
def isPrecautionSave : Event → Bool
  | Event.save t r => t = "Before performing sni_challenge" && r = none
  | _ => false

/-- `apache_restart` (lines 189-193): runs the reload subprocess and
discards `subprocess.call`'s return value. -/
def apache_restart (env : Env) : List Event × Unit :=
  ([Event.apacheReload env.reload_exit], ())

/-- The certificate-file removal loop of `remove_files` (lines 209-214);
the file system is a list of existing paths, and `os.remove` raises
`OSError` on a missing path (the `false` result). -/
def removeCertFiles (fs : List String) : List SNITuple → List Event × List String × Bool
  | [] => ([], fs, true)
  | t :: rest =>
    let path := getChocCertFile t.nonce
    if path ∈ fs then
      let p := removeCertFiles (fs.erase path) rest
      (Event.removeFile path :: p.1, p.2.1, p.2.2)
    else ([], fs, false)

/-- `remove_files` (lines 209-215): remove every challenge certificate,
then `APACHE_CHALLENGE_CONF`. -/
def remove_files (fs : List String) (listSNITuple : List SNITuple) :
    List Event × List String × Bool :=
  let p := removeCertFiles fs listSNITuple
  if p.2.2 then
    if APACHE_CHALLENGE_CONF ∈ p.2.1 then
      (p.1 ++ [Event.removeFile APACHE_CHALLENGE_CONF], p.2.1.erase APACHE_CHALLENGE_CONF, true)
    else (p.1, p.2.1, false)
  else (p.1, p.2.1, false)

/-- `cleanup` (sni_challenge.py lines 195-206): revert the configuration,
reload apache, remove the temporary files.  The boolean result records
whether the call returned normally (no exception). -/
def cleanup (env : Env) (fs : List String) (listSNITuple : List SNITuple) :
    List Event × List String × Bool :=
  let r := remove_files fs listSNITuple
  (Event.revertConfig :: (apache_restart env).1 ++ r.1, r.2.1, r.2.2)

/-- A concrete environment in which every external call succeeds. -/
def sniEnvOk : Env :=
  { choose_virtual_host := fun _ => some { addrs := ["1.2.3.4:443"] }
    make_server_sni_ready := fun _ _ => true
    generateExtension := fun _ _ => "0123ABCD"
    find_directive_count := 0
    httpd_conf := some "/etc/apache2/httpd.conf"
    cert_conf_has_ext_line := true
    reload_exit := 0 }

/-- The same environment, except the apache reload subprocess exits with
status 1 (a failed reload). -/
def sniEnvReloadFail : Env := { sniEnvOk with reload_exit := 1 }

/-- A concrete challenge tuple. -/
def sniTup : SNITuple :=
  { addr := "example.com", y := [1, 2, 3], nonce := "deadbeef", ext_oid := "1.3.3.7" }

/-- A file system containing exactly the artifacts `cleanup` removes for
`sniTup`. -/
def sniFs : List String := [getChocCertFile sniTup.nonce, APACHE_CHALLENGE_CONF]

end Sni

/-! ## Helper lemmas -/

/-- The head of every `perform_sni_cert_challenge` trace is the
pre-operation checkpoint save of line 231. -/
theorem sni_trace_head (env : Sni.Env) (listSNITuple : List Sni.SNITuple) (csr key : String)
    (h : 0 < ((Sni.perform_sni_cert_challenge env listSNITuple csr key).1).length) :
    ((Sni.perform_sni_cert_challenge env listSNITuple csr key).1).get ⟨0, h⟩
      = Sni.Event.save "Before performing sni_challenge" none := rfl

/-! ## Claim theorems -/

/-- C1.  A pre-operation checkpoint is always taken before any
challenge-serving configuration is written: in every run of
`perform_sni_cert_challenge` (any environment, tuple list, csr and key),
every configuration-write event in the trace (a `make_server_sni_ready`
mutation, the Include directive added by `checkForApacheConfInclude`, or the
write of the Apache challenge configuration file by `modifyApacheConfig`) is
strictly preceded by the `configurator.save("Before performing
sni_challenge")` checkpoint. -/
theorem sni_checkpoint_save_precedes_config_writes
    (env : Sni.Env) (listSNITuple : List Sni.SNITuple) (csr key : String)
    (i : Nat) (hi : i < ((Sni.perform_sni_cert_challenge env listSNITuple csr key).1).length)
    (hw : Sni.isChallengeConfigWrite
      (((Sni.perform_sni_cert_challenge env listSNITuple csr key).1).get ⟨i, hi⟩) = true) :
    ∃ j, ∃ hj : j < ((Sni.perform_sni_cert_challenge env listSNITuple csr key).1).length,
      j < i ∧ Sni.isPrecautionSave
        (((Sni.perform_sni_cert_challenge env listSNITuple csr key).1).get ⟨j, hj⟩) = true := by
  have hne : i ≠ 0 := by
    intro h0
    subst h0
    rw [sni_trace_head env listSNITuple csr key hi] at hw
    simp [Sni.isChallengeConfigWrite] at hw
  refine ⟨0, by omega, by omega, ?_⟩
  rw [sni_trace_head]
  rfl

/-- Witness for C1: in a concrete successful run, the configuration write at
trace index 1 (the `make_server_sni_ready` call) is preceded by the
checkpoint save. -/
theorem sni_checkpoint_save_precedes_config_writes_witness :
    ∃ j, ∃ hj : j < ((Sni.perform_sni_cert_challenge Sni.sniEnvOk [Sni.sniTup]
        "req.pem" "key.pem").1).length,
      j < 1 ∧ Sni.isPrecautionSave
        (((Sni.perform_sni_cert_challenge Sni.sniEnvOk [Sni.sniTup]
          "req.pem" "key.pem").1).get ⟨j, hj⟩) = true :=
  sni_checkpoint_save_precedes_config_writes Sni.sniEnvOk [Sni.sniTup] "req.pem" "key.pem"
    1 (by decide) (by decide)

/-- C2 counterexample.  The claim "calling manual.Authenticator.cleanup
without a prior successful perform does not raise" is false on the code: a
freshly constructed authenticator in test mode (where `_httpd` is `None`)
raises `AssertionError` from `cleanup`. -/
theorem manual_cleanup_raises_without_perform_cex :
    Manual.cleanup (Manual.authInit { noninteractive_mode := false, test_mode := true })
      = Except.error (Manual.PyErr.assertionError "cleanup() must be called after perform()") :=
  rfl

/-- C2 (amended).  When the plugin's test-mode flag is not set,
`manual.Authenticator.cleanup` is a no-op: it never raises (also for
challenges that were never performed) and leaves the state unchanged, hence
a second call gives the same end state (idempotence). -/
theorem manual_cleanup_noop_outside_test_mode (s : Manual.AuthState)
    (h : s.config.test_mode = false) :
    Manual.cleanup s = Except.ok s := by
  simp [Manual.cleanup, h]

/-- Witness for the amended C2 at a concrete non-test-mode state. -/
theorem manual_cleanup_noop_outside_test_mode_witness :
    (Manual.authInit { noninteractive_mode := false, test_mode := false }).config.test_mode
        = false ∧
    Manual.cleanup (Manual.authInit { noninteractive_mode := false, test_mode := false })
      = Except.ok (Manual.authInit { noninteractive_mode := false, test_mode := false }) :=
  ⟨rfl, manual_cleanup_noop_outside_test_mode _ rfl⟩

/-- C3 counterexample.  The claim that a failed apache reload during
`sni_challenge.cleanup` surfaces a fatal error is false on the code: with
the reload subprocess exiting 1, `cleanup` still returns normally (the
completion flag is `true`), because `apache_restart` discards
`subprocess.call`'s return value. -/
theorem sni_cleanup_reload_failure_returns_success_cex :
    Sni.sniEnvReloadFail.reload_exit = 1 ∧
    (Sni.cleanup Sni.sniEnvReloadFail Sni.sniFs [Sni.sniTup]).2.2 = true := by
  exact ⟨rfl, by decide⟩

/-- C3 (amended).  `cleanup` in sni_challenge invokes the apache reload but
ignores its exit status: the reload event is in the trace, yet the outcome
the caller observes (the resulting file system and the normal/exceptional
completion flag) is identical for every reload exit status — a reload
failure is never surfaced. -/
theorem sni_cleanup_outcome_ignores_reload_exit (env : Sni.Env) (e : Int)
    (fs : List String) (listSNITuple : List Sni.SNITuple) :
    Sni.Event.apacheReload env.reload_exit ∈ (Sni.cleanup env fs listSNITuple).1 ∧
    (Sni.cleanup { env with reload_exit := e } fs listSNITuple).2
      = (Sni.cleanup env fs listSNITuple).2 := by
  constructor
  · simp [Sni.cleanup, Sni.apache_restart]
  · rfl

/-- C4.  `manual.Authenticator.perform` is invoked once for the whole batch
(the spec-modelled orchestrator passes the full list in a single call), and
on a successful run returns one response per challenge, in input order: the
result has the same length as `achalls` and its i-th entry is produced by
`_perform_single` from the i-th challenge. -/
theorem manual_perform_whole_batch_order_preserving
    (achalls : List Manual.AChall) (rs : List Manual.SingleResult)
    (h : Manual.perform achalls = Except.ok rs) :
    Manual.orchestrator_perform_batches achalls = [achalls] ∧
    rs.length = achalls.length ∧
    ∀ i (hi : i < achalls.length), ∃ hr : i < rs.length,
      Manual._perform_single (achalls.get ⟨i, hi⟩) = Except.ok (rs.get ⟨i, hr⟩) := by
  refine ⟨rfl, ?_⟩
  induction achalls generalizing rs with
  | nil =>
    simp [Manual.perform] at h
    subst h
    exact ⟨rfl, fun i hi => absurd hi (by simp)⟩
  | cons a rest ih =>
    rw [Manual.perform] at h
    cases e1 : Manual._perform_single a with
    | error e => rw [e1] at h; exact absurd h (by simp)
    | ok r =>
      rw [e1] at h
      cases e2 : Manual.perform rest with
      | error e => rw [e2] at h; exact absurd h (by simp)
      | ok rs' =>
        rw [e2] at h
        simp only [Except.ok.injEq] at h
        subst h
        obtain ⟨hlen, hidx⟩ := ih rs' e2
        refine ⟨by simp [hlen], ?_⟩
        intro i hi
        match i, hi with
        | 0, hi => exact ⟨by simp, by simpa using e1⟩
        | n + 1, hi =>
          obtain ⟨hr, he⟩ := hidx n (by simpa using hi)
          exact ⟨by simpa using Nat.succ_lt_succ hr, by simpa using he⟩

/-- Witness for C4 on a concrete two-challenge batch. -/
theorem manual_perform_whole_batch_order_preserving_witness :
    Manual.perform Manual.manualBatch = Except.ok Manual.manualRS ∧
    Manual.manualRS.length = Manual.manualBatch.length :=
  ⟨rfl,
   (manual_perform_whole_batch_order_preserving Manual.manualBatch Manual.manualRS
     rfl).2.1⟩

/-- C5.  When a challenge's local self-verification fails,
`_perform_single` logs the warning "Self-verify of challenge failed." and
still returns the response object unchanged; the mismatch by itself raises
no exception (the only exception in the function comes from the
`validation.split('.')` unpacking, which is independent of the
verification result). -/
theorem manual_perform_single_self_verify_warning (achall : Manual.AChall)
    (hsplit : (pySplit '.' achall.validation).length = 2)
    (hfail : achall.simpleVerifyOK = false) :
    ∃ w, Manual._perform_single achall = Except.ok
      { response := achall.response,
        warnings := ["Self-verify of challenge failed."],
        writes := w } := by
  rcases hs : pySplit '.' achall.validation with _ | ⟨a, _ | ⟨b, _ | ⟨c, t⟩⟩⟩
  · rw [hs] at hsplit; simp at hsplit
  · rw [hs] at hsplit; simp at hsplit
  · exact ⟨[(Manual.target_dir ++ a, achall.validation)],
      by simp [Manual._perform_single, hs, hfail]⟩
  · rw [hs] at hsplit; simp at hsplit

/-- Witness for C5 at a concrete failing-self-verify challenge. -/
theorem manual_perform_single_self_verify_warning_witness :
    (pySplit '.' Manual.achallB.validation).length = 2 ∧
    ∃ w, Manual._perform_single Manual.achallB = Except.ok
      { response := Manual.achallB.response,
        warnings := ["Self-verify of challenge failed."],
        writes := w } :=
  ⟨by decide, manual_perform_single_self_verify_warning Manual.achallB (by decide) rfl⟩

/-- C8.  `manual.Authenticator.prepare` raises `PluginError` if and only if
the configuration is non-interactive and the test-mode flag is unset; in
every other case it returns normally with the state unchanged. -/
theorem manual_prepare_plugin_error_iff (s : Manual.AuthState) :
    (Manual.prepare s = Except.error (Manual.PyErr.pluginError
        "Running manual mode non-interactively is not supported")
      ↔ s.config.noninteractive_mode = true ∧ s.config.test_mode = false)
    ∧ (¬(s.config.noninteractive_mode = true ∧ s.config.test_mode = false) →
        Manual.prepare s = Except.ok s) := by
  obtain ⟨⟨ni, tm⟩, hp, rt⟩ := s
  cases ni <;> cases tm <;> simp [Manual.prepare]

/-- Witness for C8 at a concrete interactive test-mode state. -/
theorem manual_prepare_plugin_error_iff_witness :
    Manual.prepare (Manual.authInit { noninteractive_mode := false, test_mode := true })
      = Except.ok (Manual.authInit { noninteractive_mode := false, test_mode := true }) :=
  (manual_prepare_plugin_error_iff _).2 (by decide)

/-! ## Helper lemmas for the cli.py claims -/

/-- One `process_domain` loop iteration either leaves `domains` unchanged
(the sanitized domain was already present) or appends the sanitized domain
(it was absent). -/
theorem process_domain_step_domains (wp : List String) (a : Cli.ParsedArgs) (piece : String) :
    ((Cli.process_domain_step wp a piece).domains = a.domains ∧
      Cli.enforce_domain_sanity (pyStrip piece) ∈ a.domains) ∨
    ((Cli.process_domain_step wp a piece).domains
        = a.domains ++ [Cli.enforce_domain_sanity (pyStrip piece)] ∧
      Cli.enforce_domain_sanity (pyStrip piece) ∉ a.domains) := by
  by_cases h : Cli.enforce_domain_sanity (pyStrip piece) ∈ a.domains
  · exact Or.inl ⟨by simp [Cli.process_domain_step, h], h⟩
  · exact Or.inr ⟨by simp [Cli.process_domain_step, h], h⟩

/-- Behaviour of the `process_domain` loop over a whole piece list: the
domain list is only ever extended, every new entry is a sanitized input
piece that was not already present, no-duplicates is preserved, and every
piece's sanitized form is present afterwards. -/
theorem process_domain_foldl_spec (wp : List String) :
    ∀ (l : List String) (a : Cli.ParsedArgs),
      ∃ ext, ((l.foldl (Cli.process_domain_step wp) a).domains = a.domains ++ ext) ∧
        (∀ x ∈ ext, x ∉ a.domains ∧
          x ∈ l.map (fun d => Cli.enforce_domain_sanity (pyStrip d))) ∧
        (a.domains.Nodup → (l.foldl (Cli.process_domain_step wp) a).domains.Nodup) ∧
        (∀ d ∈ l, Cli.enforce_domain_sanity (pyStrip d)
          ∈ (l.foldl (Cli.process_domain_step wp) a).domains) := by
  intro l
  induction l with
  | nil =>
    intro a
    exact ⟨[], by simp, by simp, fun h => by simpa using h, by simp⟩
  | cons d t ih =>
    intro a
    obtain ⟨ext, he, hx, hnd, hall⟩ := ih (Cli.process_domain_step wp a d)
    rcases process_domain_step_domains wp a d with ⟨hstep, hmem⟩ | ⟨hstep, hmem⟩
    · refine ⟨ext, ?_, ?_, ?_, ?_⟩
      · simp only [List.foldl_cons]; rw [he, hstep]
      · intro x hxe
        obtain ⟨hnotin, hin⟩ := hx x hxe
        rw [hstep] at hnotin
        exact ⟨hnotin, by rw [List.map_cons]; exact List.mem_cons_of_mem _ hin⟩
      · intro hnod
        simp only [List.foldl_cons]
        exact hnd (by rwa [hstep])
      · intro d' hd'
        simp only [List.foldl_cons]
        rcases List.mem_cons.mp hd' with h | h
        · subst h
          rw [he]
          exact List.mem_append_left _ (by rw [hstep]; exact hmem)
        · exact hall d' h
    · refine ⟨Cli.enforce_domain_sanity (pyStrip d) :: ext, ?_, ?_, ?_, ?_⟩
      · simp only [List.foldl_cons]
        rw [he, hstep, List.append_assoc]
        rfl
      · intro x hxe
        rcases List.mem_cons.mp hxe with h | h
        · subst h
          exact ⟨hmem, by rw [List.map_cons]; exact List.mem_cons_self _ _⟩
        · obtain ⟨hnotin, hin⟩ := hx x h
          rw [hstep] at hnotin
          refine ⟨fun hc => hnotin (List.mem_append_left _ hc),
            by rw [List.map_cons]; exact List.mem_cons_of_mem _ hin⟩
      · intro hnod
        simp only [List.foldl_cons]
        refine hnd ?_
        rw [hstep]
        refine List.Nodup.append hnod (by simp) ?_
        intro x hxl hxe
        rw [List.mem_singleton] at hxe
        subst hxe
        exact hmem hxl
      · intro d' hd'
        simp only [List.foldl_cons]
        rcases List.mem_cons.mp hd' with h | h
        · subst h
          rw [he]
          exact List.mem_append_left _ (by rw [hstep]; exact List.mem_append_right _ (by simp))
        · exact hall d' h

/-- Behaviour of the `handle_csr` merge loop on CSR domains that are
comma-free, whitespace-free and lower-case: `parsed_args.domains` gains
exactly some subset of the CSR domains, and afterwards every CSR domain is
present. -/
theorem handle_csr_fold_spec :
    ∀ (csr : List String) (pa : Cli.ParsedArgs),
      (∀ d ∈ csr, pySplit ',' d = [d] ∧ pyStrip d = d ∧ pyLower d = d) →
      ∃ ext, ((csr.foldl (fun a d => Cli.process_domain a d none) pa).domains
          = pa.domains ++ ext) ∧
        (∀ x ∈ ext, x ∈ csr) ∧
        (∀ d ∈ csr, d ∈ (csr.foldl (fun a d => Cli.process_domain a d none) pa).domains) := by
  intro csr
  induction csr with
  | nil =>
    intro pa _
    exact ⟨[], by simp, by simp, by simp⟩
  | cons d t ih =>
    intro pa hclean
    obtain ⟨hd1, hd2, hd3⟩ := hclean d (List.mem_cons_self _ _)
    have hsan : Cli.enforce_domain_sanity (pyStrip d) = d := by
      show pyLower (pyStrip d) = d
      rw [hd2, hd3]
    have hstep_eq : Cli.process_domain pa d none
        = Cli.process_domain_step (Cli.effective_webroot pa none) pa d := by
      rw [Cli.process_domain, hd1]
      simp
    obtain ⟨ext, hee, hsub, hall⟩ :=
      ih (Cli.process_domain pa d none) (fun d' hd' => hclean d' (List.mem_cons_of_mem _ hd'))
    by_cases hmem : d ∈ pa.domains
    · have hpd : (Cli.process_domain pa d none).domains = pa.domains := by
        rw [hstep_eq]
        simp [Cli.process_domain_step, hsan, hmem]
      refine ⟨ext, ?_, ?_, ?_⟩
      · simp only [List.foldl_cons]
        rw [hee, hpd]
      · intro x hx
        exact List.mem_cons_of_mem _ (hsub x hx)
      · intro d' hd'
        simp only [List.foldl_cons]
        rcases List.mem_cons.mp hd' with h | h
        · subst h
          rw [hee]
          exact List.mem_append_left _ (by rw [hpd]; exact hmem)
        · exact hall d' h
    · have hpd : (Cli.process_domain pa d none).domains = pa.domains ++ [d] := by
        rw [hstep_eq]
        simp [Cli.process_domain_step, hsan, hmem]
      refine ⟨d :: ext, ?_, ?_, ?_⟩
      · simp only [List.foldl_cons]
        rw [hee, hpd, List.append_assoc]
        rfl
      · intro x hx
        rcases List.mem_cons.mp hx with h | h
        · subst h
          exact List.mem_cons_self _ _
        · exact List.mem_cons_of_mem _ (hsub x h)
      · intro d' hd'
        simp only [List.foldl_cons]
        rcases List.mem_cons.mp hd' with h | h
        · subst h
          rw [hee]
          exact List.mem_append_left _ (by rw [hpd]; exact List.mem_append_right _ (by simp))
        · exact hall d' h

/-- The position of the first occurrence in a split list. -/
theorem pyIndex_append_cons (l r : List String) (a : String) (hl : a ∉ l) :
    Cli.pyIndex a (l ++ a :: r) = l.length := by
  induction l with
  | nil => simp [Cli.pyIndex]
  | cons b t ih =>
    have hb : ¬(b = a) := fun h => hl (by rw [h]; exact List.mem_cons_self _ _)
    have ht : a ∉ t := fun h => hl (List.mem_cons_of_mem _ h)
    simp [Cli.pyIndex, hb, ih ht]

/-- Looking one past the first occurrence lands on the head of the rest. -/
theorem getElem?_append_cons_succ (l r : List String) (a : String) :
    (l ++ a :: r)[l.length + 1]? = r[0]? := by
  rw [List.getElem?_append_right (by omega)]
  have h1 : l.length + 1 - l.length = 1 := by omega
  rw [h1]
  exact List.getElem?_cons_succ

/-- The verb-scanning loop finds no verb: the verb defaults to `run`, the
arguments stay. -/
theorem determine_verb_core_no_verb (VERBS : List String) :
    ∀ args : List String, (∀ t ∈ args, t ∉ VERBS) →
      Cli.determine_verb_core VERBS args = ("run", args) := by
  intro args
  induction args with
  | nil => intro _; rfl
  | cons tok rest ih =>
    intro h
    have h1 : tok ∉ VERBS := h tok (List.mem_cons_self _ _)
    have h2 : ∀ t ∈ rest, t ∉ VERBS := fun t ht => h t (List.mem_cons_of_mem _ ht)
    simp [Cli.determine_verb_core, h1, ih h2]

/-- The verb-scanning loop removes the first known verb and maps it. -/
theorem determine_verb_core_first (VERBS : List String) (v : String) (hv : v ∈ VERBS) :
    ∀ (l r : List String), (∀ t ∈ l, t ∉ VERBS) →
      Cli.determine_verb_core VERBS (l ++ v :: r) = (Cli.map_verb v, l ++ r) := by
  intro l
  induction l with
  | nil => intro r _; simp [Cli.determine_verb_core, hv]
  | cons b t ih =>
    intro r h
    have hb : b ∉ VERBS := h b (List.mem_cons_self _ _)
    have ht : ∀ x ∈ t, x ∉ VERBS := fun x hx => h x (List.mem_cons_of_mem _ hx)
    simp [Cli.determine_verb_core, hb, ih r ht]

/-! ## Claim theorems for cli.py -/

/-- C6 counterexample.  The claim that `handle_csr` raises
`ConfigurationError` whenever the CSR domain set differs from the domains
supplied on the command line/config is false on the code: with no domains
supplied and a CSR naming `example.com` (sets `{example.com}` vs `{}`
differ), `handle_csr` returns normally, because `process_domain` merges the
CSR domains into `parsed_args.domains` before the comparison. -/
theorem cli_handle_csr_ignores_extra_csr_domains_cex :
    Cli.handle_csr { verb := "certonly", domains := [], webroot_path := [], webroot_map := [] }
        ["example.com"]
      = Except.ok
          { verb := "certonly", domains := ["example.com"],
            webroot_path := [], webroot_map := [] }
    ∧ "example.com" ∉ ([] : List String) :=
  ⟨rfl, by simp⟩

/-- C6 (amended).  `handle_csr` compares the CSR domain set against the
domain list after the CSR domains have been merged in by `process_domain`.
Consequently (for `certonly`, a non-empty CSR whose domains are comma-free,
whitespace-free and lower-case): it raises `ConfigurationError` when some
supplied domain is missing from the CSR, and it returns normally — before
any server mutation, this is pure argument processing — when the supplied
domains are a subset of the CSR's, even if the CSR has extra domains. -/
theorem cli_handle_csr_checks_merged_domains (pa : Cli.ParsedArgs) (csrDomains : List String)
    (hverb : pa.verb = "certonly")
    (hclean : ∀ d ∈ csrDomains, pySplit ',' d = [d] ∧ pyStrip d = d ∧ pyLower d = d)
    (hne : csrDomains ≠ []) :
    ((∃ x, x ∈ pa.domains ∧ x ∉ csrDomains) →
      ∃ msg, Cli.handle_csr pa csrDomains
        = Except.error (Cli.CliError.configurationError msg)) ∧
    ((∀ x ∈ pa.domains, x ∈ csrDomains) →
      ∃ pa1, Cli.handle_csr pa csrDomains = Except.ok pa1) := by
  have hv : ¬(pa.verb ≠ "certonly") := by simp [hverb]
  have hfind : csrDomains.find? (fun d => pyLower d ≠ Cli.enforce_domain_sanity d) = none := by
    rw [List.find?_eq_none]
    intro x _
    simp [Cli.enforce_domain_sanity]
  have hempty : csrDomains.isEmpty = false := by
    cases csrDomains with
    | nil => exact absurd rfl hne
    | cons a t => rfl
  obtain ⟨ext, hee, hsub, hall⟩ := handle_csr_fold_spec csrDomains pa hclean
  constructor
  · rintro ⟨x, hxp, hxn⟩
    have hx1 : x ∈ (csrDomains.foldl (fun a d => Cli.process_domain a d none) pa).domains := by
      rw [hee]; exact List.mem_append_left _ hxp
    have hset : Cli.listSetEq csrDomains
        (csrDomains.foldl (fun a d => Cli.process_domain a d none) pa).domains = false := by
      have h2 : ((csrDomains.foldl (fun a d => Cli.process_domain a d none) pa).domains.all
          fun y => decide (y ∈ csrDomains)) = false := by
        rw [List.all_eq_false]
        exact ⟨x, hx1, by simpa using hxn⟩
      simp [Cli.listSetEq, h2]
    have hres : Cli.handle_csr pa csrDomains
        = Except.error (Cli.CliError.configurationError
          ("Inconsistent domain requests:\nFrom the CSR: "
            ++ String.intercalate ", " csrDomains
            ++ "\nFrom command line/config: "
            ++ String.intercalate ", "
              (csrDomains.foldl (fun a d => Cli.process_domain a d none) pa).domains)) := by
      simp only [Cli.handle_csr, hfind, hempty]
      rw [if_neg hv]
      simp [hset]
    exact ⟨_, hres⟩
  · intro hsubset
    have hset : Cli.listSetEq csrDomains
        (csrDomains.foldl (fun a d => Cli.process_domain a d none) pa).domains = true := by
      rw [Cli.listSetEq, Bool.and_eq_true]
      constructor
      · rw [List.all_eq_true]
        intro x hx
        simpa using hall x hx
      · rw [List.all_eq_true]
        intro x hx
        rw [hee] at hx
        rcases List.mem_append.mp hx with h | h
        · simpa using hsubset x h
        · simpa using hsub x h
    have hres : Cli.handle_csr pa csrDomains
        = Except.ok (csrDomains.foldl (fun a d => Cli.process_domain a d none) pa) := by
      simp only [Cli.handle_csr, hfind, hempty]
      rw [if_neg hv]
      simp [hset]
    exact ⟨_, hres⟩

/-- Witness for the amended C6: a supplied domain not in the CSR yields a
`ConfigurationError`. -/
theorem cli_handle_csr_checks_merged_domains_witness :
    ∃ msg, Cli.handle_csr
        { verb := "certonly", domains := ["other.com"], webroot_path := [], webroot_map := [] }
        ["example.com"]
      = Except.error (Cli.CliError.configurationError msg) :=
  (cli_handle_csr_checks_merged_domains _ ["example.com"] rfl (by decide) (by decide)).1
    ⟨"other.com", by decide, by decide⟩

/-- C7.  `process_domain` preserves the at-most-once invariant on the
request's domain list: starting from a duplicate-free list, the result is
duplicate-free, the original list is preserved as a prefix, and each
appended entry is the normalized form of an input piece that was not
already present. -/
theorem cli_process_domain_preserves_nodup (pa : Cli.ParsedArgs) (domain_arg : String)
    (webroot_path : Option (List String)) (h : pa.domains.Nodup) :
    (Cli.process_domain pa domain_arg webroot_path).domains.Nodup ∧
    ∃ ext, (Cli.process_domain pa domain_arg webroot_path).domains = pa.domains ++ ext ∧
      ∀ x ∈ ext, x ∉ pa.domains ∧
        x ∈ (pySplit ',' domain_arg).map (fun d => Cli.enforce_domain_sanity (pyStrip d)) := by
  obtain ⟨ext, he, hx, hnd, _⟩ :=
    process_domain_foldl_spec (Cli.effective_webroot pa webroot_path)
      (pySplit ',' domain_arg) pa
  exact ⟨hnd h, ext, he, hx⟩

/-- Witness for C7 on a concrete multi-domain argument. -/
theorem cli_process_domain_preserves_nodup_witness :
    (["a.com"] : List String).Nodup ∧
    (Cli.process_domain
      { verb := "certonly", domains := ["a.com"], webroot_path := [], webroot_map := [] }
      "B.com, a.com" none).domains.Nodup :=
  ⟨by decide,
   (cli_process_domain_preserves_nodup _ "B.com, a.com" none (by decide)).1⟩

/-- C9.  `determine_verb`: with `-h` or `--help` anywhere in the arguments
the verb is `help` and the arguments are unchanged; otherwise the first
token that is a known verb is removed and becomes the verb (with `auth`
mapped to `certonly` and `everything` mapped to `run` by `map_verb`); with
no known verb present the verb defaults to `run`. -/
theorem cli_determine_verb_spec (VERBS args : List String) :
    (("-h" ∈ args ∨ "--help" ∈ args) →
      Cli.determine_verb VERBS args = ("help", args)) ∧
    ("-h" ∉ args → "--help" ∉ args →
      ((∀ t ∈ args, t ∉ VERBS) → Cli.determine_verb VERBS args = ("run", args)) ∧
      (∀ l v r, args = l ++ v :: r → (∀ t ∈ l, t ∉ VERBS) → v ∈ VERBS →
        Cli.determine_verb VERBS args = (Cli.map_verb v, l ++ r))) := by
  constructor
  · intro h
    rw [Cli.determine_verb, if_pos h]
  · intro h1 h2
    have hcond : ¬("-h" ∈ args ∨ "--help" ∈ args) := not_or.mpr ⟨h1, h2⟩
    constructor
    · intro hnone
      rw [Cli.determine_verb, if_neg hcond]
      exact determine_verb_core_no_verb VERBS args hnone
    · intro l v r harg hl hv
      rw [Cli.determine_verb, if_neg hcond, harg]
      exact determine_verb_core_first VERBS v hv l r hl

/-- Witness for C9: the alias `auth` is consumed and mapped to
`certonly`. -/
theorem cli_determine_verb_spec_witness :
    Cli.determine_verb ["run", "certonly", "auth", "everything"] ["auth", "-d", "x.com"]
      = ("certonly", ["-d", "x.com"]) :=
  ((cli_determine_verb_spec ["run", "certonly", "auth", "everything"]
      ["auth", "-d", "x.com"]).2 (by decide) (by decide)).2
    [] "auth" ["-d", "x.com"] rfl (by decide) (by decide)

/-- C10.  `prescan_for_flag` returns `False` when the flag is absent;
returns the token immediately following the first occurrence of the flag
when that token is one of `possible_arguments`; and returns `True` in every
other case, including when the flag is the last token. -/
theorem cli_prescan_for_flag_spec (flag : String) (possible args : List String) :
    (flag ∉ args → Cli.prescan_for_flag flag possible args = Cli.ScanResult.asBool false) ∧
    (∀ l r, args = l ++ flag :: r → flag ∉ l →
      (r = [] → Cli.prescan_for_flag flag possible args = Cli.ScanResult.asBool true) ∧
      (∀ n r2, r = n :: r2 →
        Cli.prescan_for_flag flag possible args =
          if n ∈ possible then Cli.ScanResult.flagArg n else Cli.ScanResult.asBool true)) := by
  constructor
  · intro h
    rw [Cli.prescan_for_flag, if_neg h]
  · intro l r harg hnl
    subst harg
    have hmem : flag ∈ l ++ flag :: r := List.mem_append_right _ (List.mem_cons_self _ _)
    have hidx := pyIndex_append_cons l r flag hnl
    constructor
    · intro hr
      subst hr
      rw [Cli.prescan_for_flag, if_pos hmem, hidx, getElem?_append_cons_succ]
      rfl
    · intro n r2 hr
      subst hr
      rw [Cli.prescan_for_flag, if_pos hmem, hidx, getElem?_append_cons_succ]
      simp

/-- Witness for C10: the token after the flag is returned when it is a
possible argument. -/
theorem cli_prescan_for_flag_spec_witness :
    Cli.prescan_for_flag "--x" ["apache", "nginx"] ["--x", "nginx"]
      = Cli.ScanResult.flagArg "nginx" :=
  (((cli_prescan_for_flag_spec "--x" ["apache", "nginx"] ["--x", "nginx"]).2
      [] ["nginx"] rfl (by decide)).2 "nginx" [] rfl).trans
    (if_pos (by decide))

end LetsEncrypt
